import Mathlib

/-!
Verification of the on-device multi-channel keyframe sequencer
(ESP32 / PCA9685 servo firmware).  This file is a shallow embedding of the
firmware sketch: `float` values are modelled as rationals (every arithmetic
step relevant to the properties below is exact at the inputs considered),
`unsigned long` values as naturals reduced mod 2^32 at every operation where
the C semantics wraps, `std::map` as an association list sorted by key, and
the PCA9685 / Serial side effects as lists of emitted writes and lines
accumulated in the machine state.
-/

set_option maxRecDepth 4000

namespace Servo

/-- Playback state of one channel, and of the global flag. -/
inductive PlaybackState where
  | IDLE
  | PLAYING
deriving DecidableEq, Repr

/-- Source struct ControlPoint: optional tangent handle.  The source field
named exists is rendered here as present. -/
structure ControlPoint where
  dt : ℚ
  da : ℚ
  present : Bool
deriving DecidableEq, Repr

/-- Default-constructed ControlPoint (dt = 0, da = 0, exists = false). -/
instance : Inhabited ControlPoint := ⟨⟨0, 0, false⟩⟩

/-- Source struct Keyframe.  time is an unsigned long (ms), angle a float. -/
structure Keyframe where
  time : ℕ
  angle : ℚ
  cp_in : ControlPoint
  cp_out : ControlPoint
deriving DecidableEq, Repr

/-- Default-constructed Keyframe (time = 0, angle = 90, no control points). -/
instance : Inhabited Keyframe := ⟨⟨0, 90, default, default⟩⟩

/-- Source struct BezierPoints: the four control coordinates of a segment. -/
structure BezierPoints where
  p0_time : ℚ
  p0_angle : ℚ
  p1_time : ℚ
  p1_angle : ℚ
  p2_time : ℚ
  p2_angle : ℚ
  p3_time : ℚ
  p3_angle : ℚ
deriving DecidableEq, Repr

/-- Source struct ServoPlaybackInfo: per-channel playback bookkeeping.
playingAll is the group-membership mark set by PLAY_LOADED. -/
structure ServoPlaybackInfo where
  state : PlaybackState
  currentSegment : ℤ
  segmentStartTime : ℕ
  currentAngle : ℚ
  playingAll : Bool
deriving DecidableEq, Repr

/-- std::map with int keys, modelled as an association list kept sorted by
key (std::map iterates in key order); lookup takes the first match. -/
abbrev SMap (V : Type) := List (Int × V)

/-- Lookup in the map (std::map::find / count). -/
def smFind? {V : Type} : SMap V → Int → Option V
  | [], _ => none
  | (k, v) :: rest, key => if k = key then some v else smFind? rest key

/-- std::map::count as a Bool. -/
def smContains {V : Type} (m : SMap V) (k : Int) : Bool :=
  (smFind? m k).isSome

/-- Lookup with a default value. -/
def smGetD {V : Type} (m : SMap V) (k : Int) (d : V) : V :=
  (smFind? m k).getD d

/-- Insert-or-replace (std::map operator[] assignment), keeping key order. -/
def smInsert {V : Type} : SMap V → Int → V → SMap V
  | [], k, v => [(k, v)]
  | (k0, v0) :: rest, k, v =>
    if k < k0 then (k, v) :: (k0, v0) :: rest
    else if k = k0 then (k, v) :: rest
    else (k0, v0) :: smInsert rest k v

/-- The Arduino constrain macro: amt below low gives low, above high gives
high, otherwise amt itself. -/
def constrainQ (amt low high : ℚ) : ℚ :=
  if amt < low then low else if amt > high then high else amt

/-- SERVO_MIN: pulse ticks at 0 degrees. -/
def SERVO_MIN : ℕ := 150

/-- SERVO_MAX: pulse ticks at 180 degrees. -/
def SERVO_MAX : ℕ := 600

/-- MAX_SERVOS from the sketch. -/
def MAX_SERVOS : ℤ := 32

/-- Source angleToPulse: constrain the angle to 0..180, round it (C round is
half away from zero, which on the nonnegative constrained value coincides
with Mathlib round), and apply the Arduino integer map onto
SERVO_MIN..SERVO_MAX.  The long division truncates; on these nonnegative
values that is Nat division. -/
def angleToPulse (angle : ℚ) : ℕ :=
  let a := constrainQ angle 0 180
  (round a).toNat * (SERVO_MAX - SERVO_MIN) / 180 + SERVO_MIN

/-- Source bezierAngle: the cubic blend on the four angle coordinates with t
constrained to 0..1 and the result constrained to 0..180. -/
def bezierAngle (t0 : ℚ) (p : BezierPoints) : ℚ :=
  let t := constrainQ t0 0 1
  let u := 1 - t
  let tt := t * t
  let uu := u * u
  let uuu := uu * u
  let ttt := tt * t
  let angle := uuu * p.p0_angle + 3 * uu * t * p.p1_angle
      + 3 * u * tt * p.p2_angle + ttt * p.p3_angle
  constrainQ angle 0 180

/-- The C isspace predicate over the characters that can occur here. -/
def isSpaceC (c : Char) : Bool :=
  c = ' ' || c = '\t' || c = '\n' || c = '\x0b' || c = '\x0c' || c = '\r'

/-- Arduino String::trim: strip leading and trailing whitespace. -/
def trimC (l : List Char) : List Char :=
  ((l.dropWhile isSpaceC).reverse.dropWhile isSpaceC).reverse

/-- Split a character list at every occurrence of sep.  This implements the
indexOf / substring scanning loops of the sketch: the result lists are
exactly the maximal runs between separators (empty runs included). -/
def splitChar (sep : Char) : List Char → List (List Char)
  | [] => [[]]
  | c :: cs =>
    if c = sep then [] :: splitChar sep cs
    else
      match splitChar sep cs with
      | s :: rest => (c :: s) :: rest
      | [] => [[c]]

/-- Arduino String::indexOf(char, from = 0): index of the first occurrence,
-1 when absent. -/
def idxOf (c : Char) : List Char → ℤ
  | [] => -1
  | x :: xs =>
    if x = c then 0
    else
      let r := idxOf c xs
      if r = -1 then -1 else r + 1

/-- Read a maximal run of decimal digits, returning the accumulated value,
the number of digits read so far, and the rest of the input. -/
def readDigitsAux : List Char → ℕ → ℕ → ℕ × ℕ × List Char
  | [], acc, n => (acc, n, [])
  | c :: cs, acc, n =>
    if c.isDigit then readDigitsAux cs (acc * 10 + (c.toNat - 48)) (n + 1)
    else (acc, n, c :: cs)

/-- Read an optional sign; the Bool is true for a leading minus. -/
def readSign : List Char → Bool × List Char
  | '-' :: cs => (true, cs)
  | '+' :: cs => (false, cs)
  | cs => (false, cs)

/-- Arduino String::toInt, which is atol: skip whitespace, optional sign,
then a digit run; 0 when no digits are found (non-numeric text is NOT an
error).  Overflow of long cannot occur at the inputs considered here. -/
def atoi (l : List Char) : ℤ :=
  let l1 := l.dropWhile isSpaceC
  let (neg, l2) := readSign l1
  let (v, _, _) := readDigitsAux l2 0 0
  if neg then -(v : ℤ) else (v : ℤ)

/-- Arduino String::toFloat, which is atof: skip whitespace, optional sign,
integer digits, optional fractional digits, optional exponent; 0 when no
mantissa digits are found (non-numeric text is NOT an error, it silently
parses as 0).  Decimal values are represented exactly; the single-precision
rounding of the device is immaterial to every property proved below, which
only evaluates this function at exactly-representable inputs. -/
def atof (l : List Char) : ℚ :=
  let l1 := l.dropWhile isSpaceC
  let (neg, l2) := readSign l1
  let (ip, ni, l3) := readDigitsAux l2 0 0
  let (fp, nf, l4) :=
    match l3 with
    | '.' :: cs => readDigitsAux cs 0 0
    | _ => (0, 0, l3)
  if ni = 0 ∧ nf = 0 then 0
  else
    let mant : ℚ := (ip : ℚ) + (fp : ℚ) / (10 : ℚ) ^ nf
    let ex : ℤ :=
      match l4 with
      | 'e' :: cs | 'E' :: cs =>
        let (eneg, cs2) := readSign cs
        let (ev, en, _) := readDigitsAux cs2 0 0
        if en = 0 then 0 else if eneg then -(ev : ℤ) else (ev : ℤ)
      | _ => 0
    (if neg then -mant else mant) * (10 : ℚ) ^ ex

/-- Conversion of a C long value to unsigned long (mod 2^32). -/
def u32ofInt (i : ℤ) : ℕ :=
  (i % 4294967296).toNat

/-- Conversion of a float to unsigned long as the sketch does when reading
keyframe times back out of BezierPoints; truncation toward zero, which on
the nonnegative whole values that occur is the floor. -/
def qToULong (q : ℚ) : ℕ :=
  (⌊q⌋).toNat

/-- The anyServoStillPlaying sweep of updatePlayback, and the defining
condition of the global playback flag: does any entry hold state PLAYING. -/
def anyPlaying (m : SMap ServoPlaybackInfo) : Bool :=
  m.any (fun p => p.2.state = .PLAYING)

/-- The whole observable machine state of the sketch: the two global maps,
the active-channel count, the global playback flag, plus the streams of
Serial lines and PCA9685 writes emitted so far (each write is a pair of
channel id and pulse ticks).  Print statements that interleave print and
println calls for one message are recorded as the one composed line. -/
structure Sys where
  sequences : SMap (List Keyframe)
  activeNumServos : ℕ
  playbackState : PlaybackState
  playbackInfo : SMap ServoPlaybackInfo
  serialOut : List String
  pwmWrites : List (Int × ℕ)
deriving DecidableEq, Repr

/-- Append one Serial line. -/
def emit (s : Sys) (line : String) : Sys :=
  { s with serialOut := s.serialOut ++ [line] }

/-- Source stopAllPlayback: every playback entry is forced IDLE and the
global flag cleared. -/
def stopAllPlayback (s : Sys) : Sys :=
  emit { s with
         playbackInfo := s.playbackInfo.map (fun p => (p.1, { p.2 with state := .IDLE })),
         playbackState := .IDLE }
    "All playback stopped"

/-- Source clearAllSequences: drop every sequence, then stopAllPlayback. -/
def clearAllSequences (s : Sys) : Sys :=
  emit (stopAllPlayback { s with sequences := [] }) "All stored sequences cleared."

/-- Source setNumServos: accept 1..MAX_SERVOS, otherwise report and drop. -/
def setNumServos (numServos : ℤ) (s : Sys) : Sys :=
  if 0 < numServos ∧ numServos ≤ MAX_SERVOS then
    emit { s with activeNumServos := numServos.toNat }
      ("Number of active servos set to " ++ toString numServos)
  else
    emit s "Invalid number of servos. Valid range: 1-32"

/-- Source setServoAngle: validate id against the active count and the angle
against 0..180; on success write the pulse and force the entry IDLE at that
angle (creating it when absent); on failure only report. -/
def setServoAngle (servoId : ℤ) (angle : ℚ) (s : Sys) : Sys :=
  if 0 ≤ servoId ∧ servoId < (s.activeNumServos : ℤ) ∧ 0 ≤ angle ∧ angle ≤ 180 then
    let s1 := { s with pwmWrites := s.pwmWrites ++ [(servoId, angleToPulse angle)] }
    let s2 :=
      match smFind? s1.playbackInfo servoId with
      | some info =>
        { s1 with playbackInfo :=
            smInsert s1.playbackInfo servoId { info with currentAngle := angle, state := .IDLE } }
      | none =>
        { s1 with playbackInfo :=
            smInsert s1.playbackInfo servoId ⟨.IDLE, 0, 0, angle, false⟩ }
    emit s2 ("Servo " ++ toString servoId ++ " set to " ++ toString angle)
  else
    if servoId < 0 ∨ (s.activeNumServos : ℤ) ≤ servoId then
      emit s ("Invalid servo ID. Valid range: 0-" ++ toString ((s.activeNumServos : ℤ) - 1))
    else
      emit s "Invalid angle value. Must be between 0 and 180"

/-- One iteration of the setMasterAngle loop body for channel i. -/
def maStep (angle : ℚ) (st : Sys) (i : ℕ) : Sys :=
  let st1 := { st with pwmWrites := st.pwmWrites ++ [((i : ℤ), angleToPulse angle)] }
  match smFind? st1.playbackInfo (i : ℤ) with
  | some info =>
    { st1 with playbackInfo :=
        smInsert st1.playbackInfo (i : ℤ) { info with currentAngle := angle, state := .IDLE } }
  | none =>
    { st1 with playbackInfo :=
        smInsert st1.playbackInfo (i : ℤ) ⟨.IDLE, 0, 0, angle, false⟩ }

/-- Source setMasterAngle: validate the angle, then sweep channels
0 .. activeNumServos-1 writing the pulse and forcing each entry IDLE. -/
def setMasterAngle (angle : ℚ) (s : Sys) : Sys :=
  if 0 ≤ angle ∧ angle ≤ 180 then
    emit ((List.range s.activeNumServos).foldl (maStep angle) s)
      ("All active servos set to " ++ toString angle)
  else
    emit s "Invalid angle value. Must be between 0 and 180"

/-- The comma-separated parameter runs of one keyframe record.  The source
scanning loop never visits a final empty run produced by a trailing comma
(after consuming the parameter before it, p_end is -1 and p_start equals the
length, so the loop exits), hence the dropLast in that case. -/
def kfParams (segment : List Char) : List (List Char) :=
  let ps := splitChar ',' segment
  if ps.getLastD [] = [] then ps.dropLast else ps

/-- The switch of parseKeyframeSegment on one parameter.  toInt and toFloat
never throw, so the catch branch of the source is unreachable code; a
non-numeric parameter silently parses as 0.  param is trimmed first, and for
the control-point slots an empty parameter leaves the point absent. -/
def kfApplyParam (kf : Keyframe) (paramIndex : ℕ) (param0 : List Char) : Keyframe :=
  let param := trimC param0
  match paramIndex with
  | 0 => { kf with time := u32ofInt (atoi param) }
  | 1 => { kf with angle := constrainQ (atof param) 0 180 }
  | 2 => if 0 < param.length then { kf with cp_in := { kf.cp_in with dt := atof param, present := true } } else kf
  | 3 => if 0 < param.length then { kf with cp_in := { kf.cp_in with da := atof param, present := true } } else kf
  | 4 => if 0 < param.length then { kf with cp_out := { kf.cp_out with dt := atof param, present := true } } else kf
  | 5 => if 0 < param.length then { kf with cp_out := { kf.cp_out with da := atof param, present := true } } else kf
  | _ => kf

/-- Source parseKeyframeSegment: walk the parameters, then require at least
time and angle (two parameters); on success append the keyframe with the
angle constrained once more, on failure reject the record. -/
def parseKeyframeSegment (segment : List Char) (sequence : List Keyframe) :
    Option (List Keyframe) :=
  let params := kfParams segment
  let kf := (params.foldl (fun acc p => (kfApplyParam acc.1 acc.2 p, acc.2 + 1))
      ((default : Keyframe), (0 : ℕ))).1
  if 2 ≤ params.length then
    some (sequence ++ [{ kf with angle := constrainQ kf.angle 0 180 }])
  else
    none

/-- The semicolon loop of loadSequenceFromString over every record strictly
before the last separator: the first failing record aborts the whole load. -/
def parseSegments : List (List Char) → List Keyframe → Option (List Keyframe)
  | [], acc => some acc
  | seg :: rest, acc =>
    match parseKeyframeSegment seg acc with
    | some acc1 => parseSegments rest acc1
    | none => none

/-- Record parsing of a whole LOAD_SEQ payload: every run before the last
semicolon is parsed unconditionally, the final run only when nonempty. -/
def parseLoadData (data : List Char) : Option (List Keyframe) :=
  let parts := splitChar ';' data
  match parseSegments parts.dropLast [] with
  | none => none
  | some acc =>
    let lastSegment := parts.getLastD []
    if lastSegment = [] then some acc else parseKeyframeSegment lastSegment acc

/-- Source loadSequenceFromString.  The per-record failure prints of the
source are summarised by the one arity-failure line that is actually
reachable.  On success the sequence for the channel is replaced and the
current angle reset to the first keyframe angle; a missing playback entry is
created IDLE, an existing entry keeps its playback state. -/
def loadSequenceFromString (servoId : ℤ) (data : List Char) (s : Sys) : Sys :=
  if servoId < 0 ∨ MAX_SERVOS ≤ servoId then
    emit s "Invalid servo ID for LOAD_SEQ"
  else
    match parseLoadData data with
    | none => emit s "LOAD_SEQ Parse Error: Incomplete keyframe data."
    | some sequence =>
      if sequence = [] then
        emit s ("LOAD_SEQ Error: No valid keyframes parsed for servo " ++ toString servoId)
      else
        let s1 := { s with sequences := smInsert s.sequences servoId sequence }
        let s2 :=
          match smFind? s1.playbackInfo servoId with
          | none =>
            { s1 with playbackInfo :=
                smInsert s1.playbackInfo servoId ⟨.IDLE, 0, 0, sequence.headI.angle, false⟩ }
          | some old =>
            { s1 with playbackInfo :=
                smInsert s1.playbackInfo servoId { old with currentAngle := sequence.headI.angle } }
        emit s2 ("Loaded sequence for servo " ++ toString servoId ++ " with "
          ++ toString sequence.length ++ " keyframes.")

/-- Source startPlaybackSingle.  now is the millis() reading at the moment
the command is processed.  Note that the guard checks only that a sequence
with at least two keyframes is stored; the active channel count is not
consulted. -/
def startPlaybackSingle (now : ℕ) (servoId : ℤ) (s : Sys) : Sys :=
  if ¬ smContains s.sequences servoId ∨ (smGetD s.sequences servoId []).length < 2 then
    emit s ("Cannot play servo " ++ toString servoId
      ++ ": No sequence loaded or not enough keyframes.")
  else
    let s1 := stopAllPlayback s
    let startTime := now % 4294967296
    let s2 :=
      match smFind? s1.playbackInfo servoId with
      | none =>
        { s1 with playbackInfo :=
            (smInsert s1.playbackInfo servoId
              ⟨.PLAYING, 0, startTime, (smGetD s.sequences servoId []).headI.angle, false⟩) }
      | some old =>
        { s1 with playbackInfo :=
            (smInsert s1.playbackInfo servoId
              { old with state := .PLAYING, currentSegment := 0,
                         segmentStartTime := startTime, playingAll := false }) }
    emit { s2 with playbackState := .PLAYING }
      ("Starting playback for servo " ++ toString servoId)

/-- The range-for of startPlaybackAll over the sequence store, threading the
playback map and the anySequenceStarted flag.  A channel qualifies when its
id is below the active count and its sequence has at least two keyframes; a
qualifying channel is set PLAYING at segment 0 and marked playingAll. -/
def playAllGo (ct : ℕ) (active : ℕ) :
    List (Int × List Keyframe) → SMap ServoPlaybackInfo → Bool → SMap ServoPlaybackInfo × Bool
  | [], m, b => (m, b)
  | (servoId, seq) :: rest, m, b =>
    if servoId < (active : ℤ) ∧ 2 ≤ seq.length then
      let e :=
        match smFind? m servoId with
        | none => (⟨.PLAYING, 0, ct, seq.headI.angle, true⟩ : ServoPlaybackInfo)
        | some old =>
          { old with state := .PLAYING, currentSegment := 0,
                     segmentStartTime := ct, playingAll := true }
      playAllGo ct active rest (smInsert m servoId e) true
    else
      playAllGo ct active rest m b

/-- Source startPlaybackAll: report when the store is empty; otherwise stop
everything, start every qualifying channel, and set the global flag exactly
when at least one started. -/
def startPlaybackAll (now : ℕ) (s : Sys) : Sys :=
  if s.sequences = [] then
    emit s "Cannot PLAY_LOADED: No sequences loaded."
  else
    let s1 := stopAllPlayback s
    let r := playAllGo (now % 4294967296) s1.activeNumServos s1.sequences s1.playbackInfo false
    if r.2 then
      emit { s1 with playbackInfo := r.1, playbackState := .PLAYING }
        "Starting playback for all loaded sequences."
    else
      emit { s1 with playbackInfo := r.1 } "No valid sequences found for active servos."

/-- Source getBezierPointsForSegment.  Returns none where the source returns
false.  The size_t comparison of the source would wrap on an empty sequence;
its only caller has already ruled that case out, and here an empty sequence
simply yields none.  timeDiff is an unsigned long subtraction, so
out-of-order keyframe times wrap it to a huge positive value (mod 2^32)
before the float conversion.  The literal 0.33 of the source is a double
constant whose value only feeds the p1/p2 time coordinates, which no
consumer reads; it is rendered as 33/100. -/
def getBezierPointsForSegment (seqs : SMap (List Keyframe)) (servoId : ℤ)
    (segmentIndex : ℤ) : Option BezierPoints :=
  if ¬ smContains seqs servoId then none
  else
    let sequence := smGetD seqs servoId []
    if segmentIndex < 0 ∨ (sequence.length : ℤ) - 1 ≤ segmentIndex then none
    else
      let kf0 := sequence.getD segmentIndex.toNat default
      let kf1 := sequence.getD (segmentIndex.toNat + 1) default
      let timeDiff : ℚ :=
        (((kf1.time % 4294967296 + 4294967296 - kf0.time % 4294967296) % 4294967296 : ℕ) : ℚ)
      let p1 : ℚ × ℚ :=
        if kf0.cp_out.present then ((kf0.time : ℚ) + kf0.cp_out.dt, kf0.angle + kf0.cp_out.da)
        else ((kf0.time : ℚ) + (if 0 < timeDiff then timeDiff else 1) * (33 / 100), kf0.angle)
      let p2 : ℚ × ℚ :=
        if kf1.cp_in.present then ((kf1.time : ℚ) + kf1.cp_in.dt, kf1.angle + kf1.cp_in.da)
        else ((kf1.time : ℚ) + (if 0 < timeDiff then timeDiff else 1) * (-(33 / 100)), kf1.angle)
      some
        { p0_time := (kf0.time : ℚ), p0_angle := kf0.angle
          p1_time := p1.1, p1_angle := constrainQ p1.2 0 180
          p2_time := p2.1, p2_angle := constrainQ p2.2 0 180
          p3_time := (kf1.time : ℚ), p3_angle := kf1.angle }

/-- The updatePlayback loop body for one playback entry, at the (already
wrapped) tick time ctu.  Returns the updated entry together with the PCA
writes and Serial lines it emits.  All unsigned long arithmetic (elapsed
time, and the segment-advance deadline segmentStartTime + duration where a
negative duration wraps) is taken mod 2^32 exactly as the C types do.  The
(long) casts the source applies to the two keyframe times before
subtracting are rendered as exact integer subtraction, faithful for every
time below 2^31 ms (about 24 days), the entire representable range of the
parser's practical inputs. -/
def tickServo (ctu : ℕ) (seqs : SMap (List Keyframe)) (servoId : ℤ)
    (info : ServoPlaybackInfo) : ServoPlaybackInfo × List (Int × ℕ) × List String :=
  if info.state ≠ .PLAYING then (info, [], [])
  else if ¬ smContains seqs servoId then ({ info with state := .IDLE }, [], [])
  else
    let sequence := smGetD seqs servoId []
    if (sequence.length : ℤ) - 1 ≤ info.currentSegment then
      ({ info with state := .IDLE }, [], [])
    else
      match getBezierPointsForSegment seqs servoId info.currentSegment with
      | none =>
        ({ info with state := .IDLE }, [],
         ["Error getting Bezier points for Servo " ++ toString servoId
           ++ " Segment " ++ toString info.currentSegment])
      | some points =>
        let segmentStartTimeMs := info.segmentStartTime % 4294967296
        let segmentDuration : ℤ :=
          (qToULong points.p3_time : ℤ) - (qToULong points.p0_time : ℤ)
        let info1 :=
          if segmentDuration ≤ 0 then { info with currentAngle := points.p3_angle }
          else
            let elapsed := (ctu + 4294967296 - segmentStartTimeMs) % 4294967296
            let t := constrainQ ((elapsed : ℚ) / (segmentDuration : ℚ)) 0 1
            { info with currentAngle := bezierAngle t points }
        let writes := [(servoId, angleToPulse info1.currentAngle)]
        if (((segmentStartTimeMs : ℤ) + segmentDuration) % 4294967296).toNat ≤ ctu then
          let info2 := { info1 with currentSegment := info1.currentSegment + 1 }
          if (sequence.length : ℤ) - 1 ≤ info2.currentSegment then
            ({ info2 with state := .IDLE, currentAngle := points.p3_angle },
             writes ++ [(servoId, angleToPulse points.p3_angle)],
             ["Servo " ++ toString servoId ++ " finished sequence."])
          else
            ({ info2 with segmentStartTime := ctu }, writes, [])
        else
          (info1, writes, [])

/-- Source updatePlayback: skip outright unless the global flag is PLAYING,
otherwise run the loop body over every entry (the entries are mutually
independent: each reads only the sequence store and its own entry), then
clear the global flag when no entry remains PLAYING. -/
def updatePlayback (now : ℕ) (s : Sys) : Sys :=
  if s.playbackState ≠ .PLAYING then s
  else
    let ctu := now % 4294967296
    let rs := s.playbackInfo.map (fun p => (p.1, tickServo ctu s.sequences p.1 p.2))
    let newInfos := rs.map (fun p => (p.1, p.2.1))
    let s1 := { s with
                playbackInfo := newInfos,
                pwmWrites := s.pwmWrites ++ (rs.map (fun p => p.2.2.1)).flatten,
                serialOut := s.serialOut ++ (rs.map (fun p => p.2.2.2)).flatten }
    if anyPlaying newInfos then s1
    else emit { s1 with playbackState := .IDLE } "All playback finished."

/-- Source processCommand: trim, dispatch the keyword before the first
colon, and run the matching handler.  now is the millis() reading used by
the play commands.  Note the SA and MA branches call stopAllPlayback before
their handler validates anything. -/
def processCommand (now : ℕ) (command0 : List Char) (s : Sys) : Sys :=
  let command := trimC command0
  if command = [] then s
  else if command = "STOP".toList then
    emit (stopAllPlayback s) "STOP command received - playback halted."
  else if command = "CLEAR_ALL".toList then clearAllSequences s
  else if command = "PLAY_LOADED".toList then startPlaybackAll now s
  else
    let firstColon := idxOf ':' command
    if firstColon ≤ 0 then emit s "Invalid command format"
    else
      let cmdType := command.take firstColon.toNat
      let payload :=
        if firstColon = (command.length : ℤ) - 1 then []
        else command.drop (firstColon.toNat + 1)
      if cmdType = "NUM_SERVOS".toList then setNumServos (atoi payload) s
      else if cmdType = "MA".toList then setMasterAngle (atof payload) (stopAllPlayback s)
      else if cmdType = "SA".toList then
        let secondColon := idxOf ':' payload
        if 0 < secondColon then
          setServoAngle (atoi (payload.take secondColon.toNat))
            (atof (payload.drop (secondColon.toNat + 1))) (stopAllPlayback s)
        else emit s "Invalid SA format. Expected SA:servo_id:angle"
      else if cmdType = "LOAD_SEQ".toList then
        let secondColon := idxOf ':' payload
        if 0 < secondColon then
          loadSequenceFromString (atoi (payload.take secondColon.toNat))
            (payload.drop (secondColon.toNat + 1)) s
        else emit s "Invalid LOAD_SEQ format. Expected LOAD_SEQ:servo_id:data"
      else if cmdType = "PLAY_SERVO".toList then startPlaybackSingle now (atoi payload) s
      else emit s ("Unknown command type: " ++ String.mk cmdType)

/-- The derived-flag invariant of the spec: the global playback flag is
PLAYING exactly when some channel entry is PLAYING. -/
def FlagInv (s : Sys) : Prop :=
  s.playbackState = .PLAYING ↔ anyPlaying s.playbackInfo = true

/-! Basic lemmas about the association-list rendering of std::map. -/

theorem smFind?_insert_self {V : Type} (m : SMap V) (k : ℤ) (v : V) :
    smFind? (smInsert m k v) k = some v := by
  induction m with
  | nil => simp [smInsert, smFind?]
  | cons p rest ih =>
    obtain ⟨k0, v0⟩ := p
    by_cases h1 : k < k0
    · simp [smInsert, smFind?, h1]
    · by_cases h2 : k = k0
      · simp [smInsert, smFind?, h1, h2]
      · simp only [smInsert, if_neg h1, if_neg h2, smFind?]
        rw [if_neg (fun h => h2 h.symm)]
        exact ih

theorem smFind?_insert_ne {V : Type} (m : SMap V) (k k' : ℤ) (v : V) (h : k' ≠ k) :
    smFind? (smInsert m k v) k' = smFind? m k' := by
  have hk : ¬ k = k' := fun hh => h hh.symm
  induction m with
  | nil => simp [smInsert, smFind?, hk]
  | cons p rest ih =>
    obtain ⟨k0, v0⟩ := p
    by_cases h1 : k < k0
    · simp [smInsert, if_pos h1, smFind?, hk]
    · by_cases h2 : k = k0
      · subst h2
        simp [smInsert, if_neg h1, smFind?, hk]
      · simp only [smInsert, if_neg h1, if_neg h2, smFind?]
        by_cases h3 : k0 = k'
        · simp [h3]
        · rw [if_neg h3, if_neg h3]
          exact ih

theorem smFind?_mem {V : Type} {m : SMap V} {k : ℤ} {v : V}
    (h : smFind? m k = some v) : (k, v) ∈ m := by
  induction m with
  | nil => simp [smFind?] at h
  | cons p rest ih =>
    obtain ⟨k0, v0⟩ := p
    by_cases h1 : k0 = k
    · simp only [smFind?, if_pos h1, Option.some.injEq] at h
      subst h1; subst h; simp
    · simp only [smFind?, if_neg h1] at h
      exact List.mem_cons_of_mem _ (ih h)

theorem smFind?_map {V W : Type} (m : SMap V) (f : V → W) (k : ℤ) :
    smFind? (m.map (fun p => (p.1, f p.2))) k = (smFind? m k).map f := by
  induction m with
  | nil => simp [smFind?]
  | cons p rest ih =>
    obtain ⟨k0, v0⟩ := p
    by_cases h1 : k0 = k
    · simp [smFind?, h1]
    · simp [smFind?, h1, ih]

theorem smFind?_map_idle (m : SMap ServoPlaybackInfo) (k : ℤ) :
    smFind? (m.map (fun p => (p.1, { p.2 with state := PlaybackState.IDLE }))) k
      = (smFind? m k).map (fun i => { i with state := PlaybackState.IDLE }) := by
  induction m with
  | nil => simp [smFind?]
  | cons p rest ih =>
    obtain ⟨k0, v0⟩ := p
    by_cases h1 : k0 = k
    · simp [smFind?, h1]
    · simp [smFind?, h1, ih]

theorem mem_smInsert {V : Type} {m : SMap V} {k : ℤ} {v : V} {p : ℤ × V}
    (h : p ∈ smInsert m k v) : p = (k, v) ∨ p ∈ m := by
  induction m with
  | nil => simpa [smInsert] using h
  | cons q rest ih =>
    obtain ⟨k0, v0⟩ := q
    by_cases h1 : k < k0
    · simp only [smInsert, if_pos h1, List.mem_cons] at h
      rcases h with h | h | h
      · exact Or.inl h
      · exact Or.inr (by simp [h])
      · exact Or.inr (List.mem_cons_of_mem _ h)
    · by_cases h2 : k = k0
      · simp only [smInsert, if_neg h1, if_pos h2, List.mem_cons] at h
        rcases h with h | h
        · exact Or.inl h
        · exact Or.inr (List.mem_cons_of_mem _ h)
      · simp only [smInsert, if_neg h1, if_neg h2, List.mem_cons] at h
        rcases h with h | h
        · exact Or.inr (by simp [h])
        · rcases ih h with h3 | h3
          · exact Or.inl h3
          · exact Or.inr (List.mem_cons_of_mem _ h3)

theorem mem_smInsert_of_mem {V : Type} {m : SMap V} {k : ℤ} {v : V} {p : ℤ × V}
    (hf : smFind? m k = none) (hp : p ∈ m) : p ∈ smInsert m k v := by
  induction m with
  | nil => simp at hp
  | cons q rest ih =>
    obtain ⟨k0, v0⟩ := q
    have h0 : ¬ k0 = k := by
      intro hh
      simp [smFind?, hh] at hf
    have hf2 : smFind? rest k = none := by simpa [smFind?, h0] using hf
    have h2 : ¬ k = k0 := fun hh => h0 hh.symm
    rcases List.mem_cons.mp hp with hp1 | hp1
    · by_cases h1 : k < k0
      · simp [smInsert, if_pos h1, hp1, List.mem_cons]
      · simp [smInsert, if_neg h1, if_neg h2, hp1, List.mem_cons]
    · by_cases h1 : k < k0
      · simp only [smInsert, if_pos h1, List.mem_cons]
        right; right; exact hp1
      · simp only [smInsert, if_neg h1, if_neg h2, List.mem_cons]
        right; exact ih hf2 hp1

theorem smInsert_mem_self {V : Type} (m : SMap V) (k : ℤ) (v : V) :
    (k, v) ∈ smInsert m k v := by
  induction m with
  | nil => simp [smInsert]
  | cons q rest ih =>
    obtain ⟨k0, v0⟩ := q
    by_cases h1 : k < k0
    · simp [smInsert, h1]
    · by_cases h2 : k = k0
      · simp [smInsert, h1, h2]
      · simp only [smInsert, if_neg h1, if_neg h2]
        exact List.mem_cons_of_mem _ ih

/-! Lemmas about anyPlaying, the defining condition of the global flag. -/

theorem anyPlaying_eq_true {m : SMap ServoPlaybackInfo} :
    anyPlaying m = true ↔ ∃ p ∈ m, p.2.state = .PLAYING := by
  simp [anyPlaying, List.any_eq_true]

theorem anyPlaying_cons (q : ℤ × ServoPlaybackInfo) (rest : SMap ServoPlaybackInfo) :
    anyPlaying (q :: rest) = (decide (q.2.state = .PLAYING) || anyPlaying rest) := by
  simp [anyPlaying]

theorem anyPlaying_map_idle (m : SMap ServoPlaybackInfo) :
    anyPlaying (m.map (fun p => (p.1, { p.2 with state := .IDLE }))) = false := by
  induction m with
  | nil => simp [anyPlaying]
  | cons p rest ih => simp [anyPlaying] at ih ⊢

theorem anyPlaying_insert_playing (m : SMap ServoPlaybackInfo) (k : ℤ)
    {v : ServoPlaybackInfo} (hv : v.state = .PLAYING) :
    anyPlaying (smInsert m k v) = true := by
  rw [anyPlaying_eq_true]
  exact ⟨(k, v), smInsert_mem_self m k v, hv⟩

theorem anyPlaying_insert_of_false {m : SMap ServoPlaybackInfo} {k : ℤ}
    {v : ServoPlaybackInfo} (hm : anyPlaying m = false) (hv : v.state ≠ .PLAYING) :
    anyPlaying (smInsert m k v) = false := by
  rw [← Bool.not_eq_true, anyPlaying_eq_true]
  rintro ⟨p, hp, hps⟩
  rcases mem_smInsert hp with h | h
  · exact hv (by rw [h] at hps; exact hps)
  · have := anyPlaying_eq_true.mpr ⟨p, h, hps⟩
    rw [hm] at this; exact Bool.false_ne_true this

theorem anyPlaying_insert_same_state {m : SMap ServoPlaybackInfo} {k : ℤ}
    {old v : ServoPlaybackInfo} (hf : smFind? m k = some old)
    (hs : v.state = old.state) :
    anyPlaying (smInsert m k v) = anyPlaying m := by
  induction m with
  | nil => simp [smFind?] at hf
  | cons q rest ih =>
    obtain ⟨k0, v0⟩ := q
    by_cases h2 : k = k0
    · have : k0 = k := h2.symm
      simp only [smFind?, if_pos this, Option.some.injEq] at hf
      have h1 : ¬ k < k0 := by omega
      simp only [smInsert, if_neg h1, if_pos h2]
      simp [anyPlaying, hs, hf]
    · have h0 : ¬ k0 = k := fun hh => h2 hh.symm
      simp only [smFind?, if_neg h0] at hf
      by_cases h1 : k < k0
      · simp only [smInsert, if_pos h1]
        have hmem : (k, old) ∈ rest := smFind?_mem hf
        by_cases hvp : v.state = .PLAYING
        · have hop : old.state = .PLAYING := by rw [← hs]; exact hvp
          have hrest : anyPlaying rest = true := anyPlaying_eq_true.mpr ⟨(k, old), hmem, hop⟩
          rw [anyPlaying_cons, anyPlaying_cons, hrest]
          simp
        · simp [anyPlaying, hvp]
      · simp only [smInsert, if_neg h1, if_neg h2]
        rw [anyPlaying_cons, anyPlaying_cons, ih hf]

theorem anyPlaying_insert_not_found {m : SMap ServoPlaybackInfo} {k : ℤ}
    {v : ServoPlaybackInfo} (hf : smFind? m k = none) (hv : v.state ≠ .PLAYING) :
    anyPlaying (smInsert m k v) = anyPlaying m := by
  cases hm : anyPlaying m with
  | false => rw [anyPlaying_insert_of_false hm hv]
  | true =>
    obtain ⟨p, hp, hps⟩ := anyPlaying_eq_true.mp hm
    exact anyPlaying_eq_true.mpr ⟨p, mem_smInsert_of_mem hf hp, hps⟩

/-! Projection lemmas: emit only appends a Serial line, stopAllPlayback
only touches the playback entries, the flag and the Serial stream. -/

@[simp] theorem emit_sequences (s : Sys) (l : String) : (emit s l).sequences = s.sequences := rfl

@[simp] theorem emit_activeNumServos (s : Sys) (l : String) :
    (emit s l).activeNumServos = s.activeNumServos := rfl

@[simp] theorem emit_playbackState (s : Sys) (l : String) :
    (emit s l).playbackState = s.playbackState := rfl

@[simp] theorem emit_playbackInfo (s : Sys) (l : String) :
    (emit s l).playbackInfo = s.playbackInfo := rfl

@[simp] theorem emit_pwmWrites (s : Sys) (l : String) : (emit s l).pwmWrites = s.pwmWrites := rfl

@[simp] theorem emit_serialOut (s : Sys) (l : String) :
    (emit s l).serialOut = s.serialOut ++ [l] := rfl

@[simp] theorem stopAll_sequences (s : Sys) : (stopAllPlayback s).sequences = s.sequences := rfl

@[simp] theorem stopAll_activeNumServos (s : Sys) :
    (stopAllPlayback s).activeNumServos = s.activeNumServos := rfl

@[simp] theorem stopAll_playbackState (s : Sys) :
    (stopAllPlayback s).playbackState = .IDLE := rfl

@[simp] theorem stopAll_playbackInfo (s : Sys) :
    (stopAllPlayback s).playbackInfo
      = s.playbackInfo.map (fun p => (p.1, { p.2 with state := .IDLE })) := rfl

@[simp] theorem stopAll_pwmWrites (s : Sys) : (stopAllPlayback s).pwmWrites = s.pwmWrites := rfl

@[simp] theorem stopAll_serialOut (s : Sys) :
    (stopAllPlayback s).serialOut = s.serialOut ++ ["All playback stopped"] := rfl

/-! Lemmas about the constrain macro. -/

theorem constrainQ_eq_self {x lo hi : ℚ} (h1 : lo ≤ x) (h2 : x ≤ hi) :
    constrainQ x lo hi = x := by
  unfold constrainQ
  rw [if_neg (by linarith), if_neg (by linarith)]

theorem constrainQ_range (x : ℚ) {lo hi : ℚ} (h : lo ≤ hi) :
    lo ≤ constrainQ x lo hi ∧ constrainQ x lo hi ≤ hi := by
  unfold constrainQ
  split_ifs with h1 h2 <;> constructor <;> linarith

theorem bezierAngle_zero (p : BezierPoints) :
    bezierAngle 0 p = constrainQ p.p0_angle 0 180 := by
  unfold bezierAngle
  rw [constrainQ_eq_self (le_refl (0 : ℚ)) (by norm_num : (0 : ℚ) ≤ 1)]
  norm_num

theorem bezierAngle_one (p : BezierPoints) :
    bezierAngle 1 p = constrainQ p.p3_angle 0 180 := by
  unfold bezierAngle
  rw [constrainQ_eq_self (by norm_num : (0 : ℚ) ≤ 1) (le_refl (1 : ℚ))]
  norm_num

/-- C8: with all four control coordinates in 0..180, the Bezier evaluator
returns exactly p0 at t = 0 and exactly p3 at t = 1, and for every t its
result lies within 0..180. -/
theorem bezierEval_endpoints_exact_and_clamped (p : BezierPoints)
    (h0l : 0 ≤ p.p0_angle) (h0u : p.p0_angle ≤ 180)
    (h1l : 0 ≤ p.p1_angle) (h1u : p.p1_angle ≤ 180)
    (h2l : 0 ≤ p.p2_angle) (h2u : p.p2_angle ≤ 180)
    (h3l : 0 ≤ p.p3_angle) (h3u : p.p3_angle ≤ 180) :
    bezierAngle 0 p = p.p0_angle ∧ bezierAngle 1 p = p.p3_angle ∧
    ∀ t : ℚ, 0 ≤ bezierAngle t p ∧ bezierAngle t p ≤ 180 := by
  refine ⟨?_, ?_, ?_⟩
  · rw [bezierAngle_zero, constrainQ_eq_self h0l h0u]
  · rw [bezierAngle_one, constrainQ_eq_self h3l h3u]
  · intro t
    unfold bezierAngle
    exact constrainQ_range _ (by norm_num)

/-- Witness for C8 at the concrete control coordinates (90, 100, 110, 150). -/
theorem bezierEval_endpoints_exact_and_clamped_witness :
    bezierAngle 0 ⟨0, 90, 10, 100, 490, 110, 500, 150⟩ = 90 ∧
    bezierAngle 1 ⟨0, 90, 10, 100, 490, 110, 500, 150⟩ = 150 := by
  have h := bezierEval_endpoints_exact_and_clamped ⟨0, 90, 10, 100, 490, 110, 500, 150⟩
    (by norm_num) (by norm_num) (by norm_num) (by norm_num)
    (by norm_num) (by norm_num) (by norm_num) (by norm_num)
  exact ⟨h.1, h.2.1⟩

theorem constrainQ_constrainQ (x lo hi : ℚ) (h : lo ≤ hi) :
    constrainQ (constrainQ x lo hi) lo hi = constrainQ x lo hi :=
  constrainQ_eq_self (constrainQ_range x h).1 (constrainQ_range x h).2

/-- C10: a two-field keyframe record whose angle text parses numerically to
any value at all is accepted, with the angle clamped into 0..180 (never
rejected), and consequently a LOAD_SEQ whose payload carries an
out-of-range numeric angle succeeds, storing the clamped angle. -/
theorem loadSeq_accepts_and_clamps_numeric_angle (seg p0 p1 : List Char)
    (kfs : List Keyframe) (hsplit : splitChar ',' seg = [p0, p1]) (hp1 : p1 ≠ []) :
    parseKeyframeSegment seg kfs =
      some (kfs ++ [{ time := u32ofInt (atoi (trimC p0)),
                      angle := constrainQ (atof (trimC p1)) 0 180,
                      cp_in := default, cp_out := default }]) ∧
    (loadSequenceFromString 0 "0,90;500,200".toList
        ⟨[], 5, .IDLE, [], [], []⟩).sequences
      = [(0, [⟨0, 90, default, default⟩, ⟨500, 180, default, default⟩])] := by
  constructor
  · have hkfp : kfParams seg = [p0, p1] := by
      simp [kfParams, hsplit, hp1]
    simp only [parseKeyframeSegment, hkfp, List.foldl, kfApplyParam, List.length_cons,
      List.length_nil]
    norm_num
    rw [constrainQ_constrainQ _ _ _ (by norm_num)]
    exact ⟨rfl, rfl, rfl⟩
  · with_unfolding_all rfl

/-- Witness for C10 at the concrete record 500,300. -/
theorem loadSeq_accepts_and_clamps_numeric_angle_witness :
    splitChar ',' "500,300".toList = ["500".toList, "300".toList] ∧
    parseKeyframeSegment "500,300".toList [] =
      some [{ time := u32ofInt (atoi (trimC "500".toList)),
              angle := constrainQ (atof (trimC "300".toList)) 0 180,
              cp_in := default, cp_out := default }] := by
  refine ⟨by decide, ?_⟩
  exact (loadSeq_accepts_and_clamps_numeric_angle "500,300".toList "500".toList "300".toList []
    (by decide) (by decide)).1

/-- Channels that never qualify inside the PLAY_LOADED sweep keep their
playback entry untouched by the sweep. -/
theorem playAllGo_find_skip (ct active : ℕ) (l : List (Int × List Keyframe))
    (m : SMap ServoPlaybackInfo) (b : Bool) (k : ℤ)
    (h : ∀ seq, (k, seq) ∈ l → ¬(k < (active : ℤ) ∧ 2 ≤ seq.length)) :
    smFind? (playAllGo ct active l m b).1 k = smFind? m k := by
  induction l generalizing m b with
  | nil => rfl
  | cons q rest ih =>
    obtain ⟨k0, seq0⟩ := q
    by_cases hq : k0 < (active : ℤ) ∧ 2 ≤ seq0.length
    · have hk : k0 ≠ k := by
        intro hh
        subst hh
        exact h seq0 (List.mem_cons_self _ _) hq
      simp only [playAllGo, if_pos hq]
      rw [ih _ _ (fun seq hmem => h seq (List.mem_cons_of_mem _ hmem))]
      exact smFind?_insert_ne _ _ _ _ (fun hh => hk hh.symm)
    · simp only [playAllGo, if_neg hq]
      exact ih _ _ (fun seq hmem => h seq (List.mem_cons_of_mem _ hmem))

/-- C9: PLAY_SERVO does not consult the active channel count: any channel
in 0..MAX_SERVOS-1 with a stored sequence of at least two keyframes starts
playing, even when it lies at or above the active count; PLAY_LOADED in
contrast never leaves such an out-of-count channel PLAYING. -/
theorem playServo_ignores_active_count (s : Sys) (now : ℕ) (servoId : ℤ)
    (seq : List Keyframe) (hge : (s.activeNumServos : ℤ) ≤ servoId)
    (h0 : 0 ≤ servoId) (h1 : servoId < MAX_SERVOS)
    (hseq : smFind? s.sequences servoId = some seq) (hlen : 2 ≤ seq.length) :
    ((smFind? (startPlaybackSingle now servoId s).playbackInfo servoId).map
        (fun i => i.state) = some .PLAYING ∧
      (startPlaybackSingle now servoId s).playbackState = .PLAYING) ∧
    (smFind? (startPlaybackAll now s).playbackInfo servoId).map (fun i => i.state)
      ≠ some .PLAYING := by
  constructor
  · have hcn : smContains s.sequences servoId = true := by simp [smContains, hseq]
    have hnl : ¬ (smGetD s.sequences servoId []).length < 2 := by
      simp [smGetD, hseq]
      omega
    cases hf : smFind? s.playbackInfo servoId with
    | none =>
      constructor
      · simp [startPlaybackSingle, hcn, hnl, smFind?_map_idle, hf, smFind?_insert_self]
      · simp [startPlaybackSingle, hcn, hnl, smFind?_map_idle, hf]
    | some old =>
      constructor
      · simp [startPlaybackSingle, hcn, hnl, smFind?_map_idle, hf, smFind?_insert_self]
      · simp [startPlaybackSingle, hcn, hnl, smFind?_map_idle, hf]
  · by_cases hemp : s.sequences = []
    · rw [hemp] at hseq
      simp [smFind?] at hseq
    · have hfind := playAllGo_find_skip (now % 4294967296) s.activeNumServos s.sequences
        (s.playbackInfo.map (fun p => (p.1, { p.2 with state := PlaybackState.IDLE })))
        false servoId
        (fun sq _ => by
          intro hcontra
          omega)
      simp only [startPlaybackAll, if_neg hemp, stopAll_sequences, stopAll_activeNumServos,
        stopAll_playbackInfo]
      split_ifs with hb2 <;>
      · simp only [emit_playbackInfo]
        rw [hfind, smFind?_map_idle]
        cases smFind? s.playbackInfo servoId <;> simp

/-- Witness for C9: channel 3 has a two-keyframe sequence while only 2
channels are active; PLAY_SERVO:3 starts it, PLAY_LOADED does not. -/
theorem playServo_ignores_active_count_witness :
    ((2 : ℤ) ≤ 3 ∧ (0 : ℤ) ≤ 3 ∧ (3 : ℤ) < MAX_SERVOS) ∧
    ((smFind? (startPlaybackSingle 0 3
        ⟨[(3, [⟨0, 90, default, default⟩, ⟨500, 150, default, default⟩])], 2, .IDLE,
          [], [], []⟩).playbackInfo 3).map (fun i => i.state) = some .PLAYING ∧
      (smFind? (startPlaybackAll 0
        ⟨[(3, [⟨0, 90, default, default⟩, ⟨500, 150, default, default⟩])], 2, .IDLE,
          [], [], []⟩).playbackInfo 3).map (fun i => i.state) ≠ some .PLAYING) := by
  have h := playServo_ignores_active_count
    ⟨[(3, [⟨0, 90, default, default⟩, ⟨500, 150, default, default⟩])], 2, .IDLE, [], [], []⟩
    0 3 [⟨0, 90, default, default⟩, ⟨500, 150, default, default⟩]
    (by norm_num) (by norm_num) (by norm_num [MAX_SERVOS]) (by with_unfolding_all rfl) (by norm_num)
  exact ⟨⟨by norm_num, by norm_num, by norm_num [MAX_SERVOS]⟩, h.1.1, h.2⟩

theorem updatePlayback_not_playing {s : Sys} (h : s.playbackState ≠ .PLAYING) (now : ℕ) :
    updatePlayback now s = s := by
  unfold updatePlayback
  rw [if_pos h]

theorem setServoAngle_playbackState (servoId : ℤ) (angle : ℚ) (s : Sys) :
    (setServoAngle servoId angle s).playbackState = s.playbackState := by
  simp only [setServoAngle]
  split_ifs
  · split <;> rfl
  · rfl
  · rfl

theorem setServoAngle_find_valid (s : Sys) (servoId : ℤ) (angle : ℚ)
    (hcond : 0 ≤ servoId ∧ servoId < (s.activeNumServos : ℤ) ∧ 0 ≤ angle ∧ angle ≤ 180) :
    ∃ info, smFind? (setServoAngle servoId angle s).playbackInfo servoId = some info ∧
      info.state = .IDLE ∧ info.currentAngle = angle := by
  cases hf : smFind? s.playbackInfo servoId with
  | none =>
    exact ⟨⟨.IDLE, 0, 0, angle, false⟩,
      by simp [setServoAngle, hcond.1, hcond.2.1, hcond.2.2.1, hcond.2.2.2, hf,
        smFind?_insert_self],
      rfl, rfl⟩
  | some old =>
    exact ⟨{ old with currentAngle := angle, state := .IDLE },
      by simp [setServoAngle, hcond.1, hcond.2.1, hcond.2.2.1, hcond.2.2.2, hf,
        smFind?_insert_self],
      rfl, rfl⟩

/-- C4: for every angle in 0..180 and in-range channel id, SA (which the
router dispatches as stopAllPlayback followed by setServoAngle) followed by
one scheduler tick leaves the channel IDLE with its current angle equal to
the commanded angle, whatever playback state it was in before. -/
theorem sa_then_tick_leaves_idle_at_angle (s : Sys) (servoId : ℤ) (angle : ℚ) (now : ℕ)
    (h0 : 0 ≤ servoId) (h1 : servoId < (s.activeNumServos : ℤ))
    (h2 : 0 ≤ angle) (h3 : angle ≤ 180) :
    ∃ info,
      smFind? (updatePlayback now (setServoAngle servoId angle (stopAllPlayback s))).playbackInfo
          servoId = some info ∧
        info.state = .IDLE ∧ info.currentAngle = angle := by
  have hflag : (setServoAngle servoId angle (stopAllPlayback s)).playbackState ≠ .PLAYING := by
    rw [setServoAngle_playbackState, stopAll_playbackState]
    simp
  rw [updatePlayback_not_playing hflag]
  exact setServoAngle_find_valid (stopAllPlayback s) servoId angle
    ⟨h0, by simpa using h1, h2, h3⟩

/-- Witness for C4: channel 0 is PLAYING, SA:0:67.5 plus a tick leaves it
IDLE at 67.5. -/
theorem sa_then_tick_leaves_idle_at_angle_witness :
    ((0 : ℤ) ≤ 0 ∧ (0 : ℤ) < (5 : ℕ) ∧ (0 : ℚ) ≤ 135 / 2 ∧ (135 / 2 : ℚ) ≤ 180) ∧
    (∃ info,
      smFind? (updatePlayback 20 (setServoAngle 0 (135 / 2)
          (stopAllPlayback ⟨[], 5, .PLAYING, [(0, ⟨.PLAYING, 0, 0, 10, false⟩)], [], []⟩))).playbackInfo
          0 = some info ∧
        info.state = .IDLE ∧ info.currentAngle = 135 / 2) := by
  refine ⟨⟨by norm_num, by norm_num, by norm_num, by norm_num⟩, ?_⟩
  exact sa_then_tick_leaves_idle_at_angle
    ⟨[], 5, .PLAYING, [(0, ⟨.PLAYING, 0, 0, 10, false⟩)], [], []⟩ 0 (135 / 2) 20
    (by norm_num) (by norm_num) (by norm_num) (by norm_num)

/-! Preservation of the derived-flag invariant by every operation. -/

theorem flagInv_stopAll (s : Sys) : FlagInv (stopAllPlayback s) := by
  unfold FlagInv
  rw [stopAll_playbackState, stopAll_playbackInfo, anyPlaying_map_idle]
  simp

theorem flagInv_setNumServos {s : Sys} (h : FlagInv s) (n : ℤ) :
    FlagInv (setNumServos n s) := by
  unfold setNumServos
  split_ifs <;> exact h

theorem maStep_playbackState (angle : ℚ) (st : Sys) (i : ℕ) :
    (maStep angle st i).playbackState = st.playbackState := by
  simp only [maStep]
  split <;> rfl

theorem anyPlaying_maStep {st : Sys} (hst : anyPlaying st.playbackInfo = false)
    (angle : ℚ) (i : ℕ) : anyPlaying (maStep angle st i).playbackInfo = false := by
  simp only [maStep]
  split <;> exact anyPlaying_insert_of_false hst (by intro hc; exact PlaybackState.noConfusion hc)

theorem maFold_playbackState (angle : ℚ) (l : List ℕ) (s : Sys) :
    (l.foldl (maStep angle) s).playbackState = s.playbackState := by
  induction l generalizing s with
  | nil => rfl
  | cons i rest ih => rw [List.foldl_cons, ih (maStep angle s i), maStep_playbackState]

theorem maFold_anyPlaying (angle : ℚ) (l : List ℕ) (s : Sys)
    (h : anyPlaying s.playbackInfo = false) :
    anyPlaying ((l.foldl (maStep angle) s).playbackInfo) = false := by
  induction l generalizing s with
  | nil => exact h
  | cons i rest ih => exact ih _ (anyPlaying_maStep h angle i)

theorem flagInv_setMasterAngle {s : Sys} (angle : ℚ)
    (hidle : anyPlaying s.playbackInfo = false) (hflag : s.playbackState = .IDLE) :
    FlagInv (setMasterAngle angle s) := by
  unfold setMasterAngle
  split_ifs
  · unfold FlagInv
    rw [emit_playbackState, emit_playbackInfo, maFold_playbackState,
      maFold_anyPlaying _ _ _ hidle, hflag]
    simp
  · unfold FlagInv
    rw [emit_playbackState, emit_playbackInfo, hflag, hidle]
    simp

theorem flagInv_setServoAngle {s : Sys} (servoId : ℤ) (angle : ℚ)
    (hidle : anyPlaying s.playbackInfo = false) (hflag : s.playbackState = .IDLE) :
    FlagInv (setServoAngle servoId angle s) := by
  simp only [setServoAngle]
  split_ifs
  · unfold FlagInv
    split
    · rw [emit_playbackState, emit_playbackInfo, hflag,
        anyPlaying_insert_of_false hidle (by intro hc; exact PlaybackState.noConfusion hc)]
      simp
    · rw [emit_playbackState, emit_playbackInfo, hflag,
        anyPlaying_insert_of_false hidle (by intro hc; exact PlaybackState.noConfusion hc)]
      simp
  · unfold FlagInv
    rw [emit_playbackState, emit_playbackInfo, hflag, hidle]
    simp
  · unfold FlagInv
    rw [emit_playbackState, emit_playbackInfo, hflag, hidle]
    simp

theorem flagInv_load {s : Sys} (h : FlagInv s) (servoId : ℤ) (data : List Char) :
    FlagInv (loadSequenceFromString servoId data s) := by
  simp only [loadSequenceFromString]
  split_ifs with h1
  · exact h
  · split
    next => exact h
    next seqn heq0 =>
      split_ifs with h2
      · exact h
      · unfold FlagInv
        split
        next heq =>
          rw [emit_playbackState, emit_playbackInfo]
          show s.playbackState = .PLAYING ↔ anyPlaying (smInsert s.playbackInfo servoId _) = true
          rw [anyPlaying_insert_not_found heq (by intro hc; exact PlaybackState.noConfusion hc)]
          exact h
        next old heq =>
          rw [emit_playbackState, emit_playbackInfo]
          have hsame := @anyPlaying_insert_same_state s.playbackInfo servoId old
            ⟨old.state, old.currentSegment, old.segmentStartTime, seqn.headI.angle,
              old.playingAll⟩ heq rfl
          show s.playbackState = .PLAYING ↔ _ = true
          rw [hsame]
          exact h

theorem flagInv_startSingle {s : Sys} (h : FlagInv s) (now : ℕ) (servoId : ℤ) :
    FlagInv (startPlaybackSingle now servoId s) := by
  simp only [startPlaybackSingle]
  split_ifs with h1
  · exact h
  · unfold FlagInv
    split
    · rw [emit_playbackState, emit_playbackInfo]
      show PlaybackState.PLAYING = .PLAYING ↔ anyPlaying (smInsert _ servoId _) = true
      rw [anyPlaying_insert_playing _ _ rfl]
      simp
    · rw [emit_playbackState, emit_playbackInfo]
      show PlaybackState.PLAYING = .PLAYING ↔ anyPlaying (smInsert _ servoId _) = true
      rw [anyPlaying_insert_playing _ _ rfl]
      simp

theorem playAllGo_any (ct active : ℕ) (l : List (Int × List Keyframe)) :
    ∀ (m : SMap ServoPlaybackInfo) (b : Bool), anyPlaying m = b →
      anyPlaying (playAllGo ct active l m b).1 = (playAllGo ct active l m b).2 := by
  induction l with
  | nil => exact fun m b h => h
  | cons q rest ih =>
    intro m b hmb
    obtain ⟨k0, seq0⟩ := q
    by_cases hq : k0 < (active : ℤ) ∧ 2 ≤ seq0.length
    · simp only [playAllGo, if_pos hq]
      apply ih
      split
      · exact anyPlaying_insert_playing _ _ rfl
      · exact anyPlaying_insert_playing _ _ rfl
    · simp only [playAllGo, if_neg hq]
      exact ih m b hmb

theorem flagInv_startAll {s : Sys} (h : FlagInv s) (now : ℕ) :
    FlagInv (startPlaybackAll now s) := by
  have hbase : anyPlaying (stopAllPlayback s).playbackInfo = false := by
    rw [stopAll_playbackInfo]
    exact anyPlaying_map_idle _
  have hany := playAllGo_any (now % 4294967296) (stopAllPlayback s).activeNumServos
    (stopAllPlayback s).sequences (stopAllPlayback s).playbackInfo false hbase
  simp only [startPlaybackAll]
  split_ifs with hemp hb
  · exact h
  · unfold FlagInv
    rw [emit_playbackState, emit_playbackInfo]
    dsimp only []
    rw [hany, hb]
    simp
  · unfold FlagInv
    rw [emit_playbackState, emit_playbackInfo]
    dsimp only []
    rw [hany]
    simp only [Bool.not_eq_true] at hb
    rw [hb, stopAll_playbackState]
    simp

theorem flagInv_updatePlayback {s : Sys} (h : FlagInv s) (now : ℕ) :
    FlagInv (updatePlayback now s) := by
  simp only [updatePlayback]
  split_ifs with hnp hany
  · exact h
  · have hp : s.playbackState = .PLAYING := by
      cases hps : s.playbackState
      · exact absurd (by rw [hps]; decide) hnp
      · rfl
    unfold FlagInv
    dsimp only []
    rw [hany, hp]
    simp
  · unfold FlagInv
    rw [emit_playbackState, emit_playbackInfo]
    dsimp only []
    simp only [Bool.not_eq_true] at hany
    rw [hany]
    simp

set_option maxHeartbeats 1600000 in
/-- C7: the global playback flag equals PLAYING exactly when some channel
entry is PLAYING, at every observation point of the control loop: the
invariant is preserved by processing any command line and by any complete
scheduler tick; and the only effect of the flag on the tick is to skip it
entirely (the tick is the identity when the flag is IDLE). -/
theorem globalFlag_derived_invariant (s : Sys) (h : FlagInv s) :
    (∀ (now : ℕ) (cmd : List Char), FlagInv (processCommand now cmd s)) ∧
    (∀ now : ℕ, FlagInv (updatePlayback now s)) ∧
    (s.playbackState = .IDLE → ∀ now : ℕ, updatePlayback now s = s) := by
  refine ⟨?_, fun now => flagInv_updatePlayback h now,
    fun hidle now => updatePlayback_not_playing (by rw [hidle]; decide) now⟩
  intro now cmd
  unfold processCommand
  lift_lets
  extract_lets command firstColon cmdType payload secondColon
  split_ifs with h1 h2 h3 h4 h5 h6 h7 h8 h9 h10 h11 h12
  · exact h
  · exact flagInv_stopAll s
  · exact flagInv_stopAll _
  · exact flagInv_startAll h now
  · exact h
  · exact flagInv_setNumServos h _
  · exact flagInv_setMasterAngle _
      (by rw [stopAll_playbackInfo]; exact anyPlaying_map_idle _) (stopAll_playbackState s)
  · exact flagInv_setServoAngle _ _
      (by rw [stopAll_playbackInfo]; exact anyPlaying_map_idle _) (stopAll_playbackState s)
  · exact h
  · exact flagInv_load h _ _
  · exact h
  · exact flagInv_startSingle h now _
  · exact h

/-- Witness for C7 on a concrete state with one PLAYING channel. -/
theorem globalFlag_derived_invariant_witness :
    FlagInv ⟨[], 5, .PLAYING, [(0, ⟨.PLAYING, 0, 0, 90, false⟩)], [], []⟩ ∧
    FlagInv (processCommand 0 "STOP".toList
      ⟨[], 5, .PLAYING, [(0, ⟨.PLAYING, 0, 0, 90, false⟩)], [], []⟩) := by
  have hinv : FlagInv ⟨[], 5, .PLAYING, [(0, ⟨.PLAYING, 0, 0, 90, false⟩)], [], []⟩ := by
    unfold FlagInv anyPlaying
    simp
  exact ⟨hinv,
    (globalFlag_derived_invariant ⟨[], 5, .PLAYING, [(0, ⟨.PLAYING, 0, 0, 90, false⟩)], [], []⟩
      hinv).1 0 "STOP".toList⟩


/-- C2 as stated is refuted: with a PLAYING entry for channel 0 and a prior
sequence, the successful load LOAD_SEQ:0:0,90;500,150 replaces the sequence
and resets the current angle, yet the channel is still PLAYING afterwards
(the source only overwrites currentAngle on an existing entry). -/
theorem load_success_keeps_playing_counterexample :
    (smFind? (processCommand 0 "LOAD_SEQ:0:0,90;500,150".toList
        ⟨[(0, [⟨0, 10, default, default⟩, ⟨100, 20, default, default⟩])], 5, .PLAYING,
          [(0, ⟨.PLAYING, 0, 50, 10, false⟩)], [], []⟩).sequences 0
      = some [⟨0, 90, default, default⟩, ⟨500, 150, default, default⟩]) ∧
    ((smFind? (processCommand 0 "LOAD_SEQ:0:0,90;500,150".toList
        ⟨[(0, [⟨0, 10, default, default⟩, ⟨100, 20, default, default⟩])], 5, .PLAYING,
          [(0, ⟨.PLAYING, 0, 50, 10, false⟩)], [], []⟩).playbackInfo 0).map
        (fun i => i.state) = some .PLAYING) := by
  constructor
  · with_unfolding_all rfl
  · with_unfolding_all rfl

/-- C2 (amended): a successful LOAD_SEQ replaces the stored sequence for
the channel and resets its current angle to the first keyframe angle; a
missing playback entry is created IDLE, but an existing entry keeps its
playback state (in particular a PLAYING channel remains PLAYING), and the
global flag, the hardware writes and the other channels are untouched. -/
theorem load_success_replaces_and_resets_angle (s : Sys) (servoId : ℤ) (data : List Char)
    (seqn : List Keyframe) (h0 : 0 ≤ servoId) (h1 : servoId < MAX_SERVOS)
    (hp : parseLoadData data = some seqn) (hne : seqn ≠ []) :
    (loadSequenceFromString servoId data s).sequences = smInsert s.sequences servoId seqn ∧
    smFind? (loadSequenceFromString servoId data s).playbackInfo servoId =
      some (match smFind? s.playbackInfo servoId with
        | none => ⟨.IDLE, 0, 0, seqn.headI.angle, false⟩
        | some old => { old with currentAngle := seqn.headI.angle }) ∧
    (∀ k, k ≠ servoId →
      smFind? (loadSequenceFromString servoId data s).playbackInfo k
        = smFind? s.playbackInfo k) ∧
    (loadSequenceFromString servoId data s).playbackState = s.playbackState ∧
    (loadSequenceFromString servoId data s).pwmWrites = s.pwmWrites := by
  have hg : ¬(servoId < 0 ∨ MAX_SERVOS ≤ servoId) := by omega
  cases hf : smFind? s.playbackInfo servoId with
  | none =>
    refine ⟨?_, ?_, fun k hk => ?_, ?_, ?_⟩
    · simp [loadSequenceFromString, hg, hp, hne, hf]
    · simp [loadSequenceFromString, hg, hp, hne, hf, smFind?_insert_self]
    · simp [loadSequenceFromString, hg, hp, hne, hf, smFind?_insert_ne _ _ _ _ hk]
    · simp [loadSequenceFromString, hg, hp, hne, hf]
    · simp [loadSequenceFromString, hg, hp, hne, hf]
  | some old =>
    refine ⟨?_, ?_, fun k hk => ?_, ?_, ?_⟩
    · simp [loadSequenceFromString, hg, hp, hne, hf]
    · simp [loadSequenceFromString, hg, hp, hne, hf, smFind?_insert_self]
    · simp [loadSequenceFromString, hg, hp, hne, hf, smFind?_insert_ne _ _ _ _ hk]
    · simp [loadSequenceFromString, hg, hp, hne, hf]
    · simp [loadSequenceFromString, hg, hp, hne, hf]

/-- Witness for the amended C2 at a concrete load onto a PLAYING channel. -/
theorem load_success_replaces_and_resets_angle_witness :
    (parseLoadData "0,90;500,150".toList
      = some [⟨0, 90, default, default⟩, ⟨500, 150, default, default⟩]) ∧
    ((loadSequenceFromString 0 "0,90;500,150".toList
        ⟨[(0, [⟨0, 10, default, default⟩, ⟨100, 20, default, default⟩])], 5, .PLAYING,
          [(0, ⟨.PLAYING, 0, 50, 10, false⟩)], [], []⟩).sequences
      = smInsert [(0, [⟨0, 10, default, default⟩, ⟨100, 20, default, default⟩])] 0
          [⟨0, 90, default, default⟩, ⟨500, 150, default, default⟩] ∧
      smFind? (loadSequenceFromString 0 "0,90;500,150".toList
        ⟨[(0, [⟨0, 10, default, default⟩, ⟨100, 20, default, default⟩])], 5, .PLAYING,
          [(0, ⟨.PLAYING, 0, 50, 10, false⟩)], [], []⟩).playbackInfo 0
      = some ⟨.PLAYING, 0, 50, 90, false⟩) := by
  have hp : parseLoadData "0,90;500,150".toList
      = some [⟨0, 90, default, default⟩, ⟨500, 150, default, default⟩] := by
    with_unfolding_all rfl
  have h := load_success_replaces_and_resets_angle
    ⟨[(0, [⟨0, 10, default, default⟩, ⟨100, 20, default, default⟩])], 5, .PLAYING,
      [(0, ⟨.PLAYING, 0, 50, 10, false⟩)], [], []⟩ 0 "0,90;500,150".toList
    [⟨0, 90, default, default⟩, ⟨500, 150, default, default⟩]
    (by norm_num) (by norm_num [MAX_SERVOS]) hp (by simp)
  refine ⟨hp, h.1, ?_⟩
  rw [h.2.1]
  with_unfolding_all rfl

/-- C3 as stated is refuted: SA:0:200 (angle out of range) is rejected with
no hardware write and an error line, yet channel 0, which was PLAYING, has
been forced IDLE, because the router ran stopAllPlayback before the range
check. -/
theorem rejected_sa_stops_playback_counterexample :
    ((processCommand 0 "SA:0:200".toList
        ⟨[], 5, .PLAYING, [(0, ⟨.PLAYING, 0, 50, 10, false⟩)], [], []⟩).pwmWrites = []) ∧
    ((smFind? (processCommand 0 "SA:0:200".toList
        ⟨[], 5, .PLAYING, [(0, ⟨.PLAYING, 0, 50, 10, false⟩)], [], []⟩).playbackInfo 0).map
        (fun i => i.state) = some .IDLE) ∧
    ((processCommand 0 "SA:0:200".toList
        ⟨[], 5, .PLAYING, [(0, ⟨.PLAYING, 0, 50, 10, false⟩)], [], []⟩).serialOut
      = ["All playback stopped", "Invalid angle value. Must be between 0 and 180"]) := by
  refine ⟨?_, ?_, ?_⟩
  · with_unfolding_all rfl
  · with_unfolding_all rfl
  · with_unfolding_all rfl

/-- C3 (amended): an SA or MA command that fails range validation performs
no hardware write, reports an error, and leaves the sequence store, active
count and every stored angle unchanged; but it does NOT leave playback
state untouched: the router stops all playback before validation, so every
channel is forced IDLE and the global flag cleared even though the
operation itself is rejected. -/
theorem rejected_sa_ma_still_stops_playback (s : Sys) (servoId : ℤ) (angle : ℚ) :
    (¬(0 ≤ servoId ∧ servoId < (s.activeNumServos : ℤ) ∧ 0 ≤ angle ∧ angle ≤ 180) →
      (setServoAngle servoId angle (stopAllPlayback s)).pwmWrites = s.pwmWrites ∧
      (setServoAngle servoId angle (stopAllPlayback s)).sequences = s.sequences ∧
      (setServoAngle servoId angle (stopAllPlayback s)).activeNumServos = s.activeNumServos ∧
      (setServoAngle servoId angle (stopAllPlayback s)).playbackInfo =
        s.playbackInfo.map (fun p => (p.1, { p.2 with state := .IDLE })) ∧
      (setServoAngle servoId angle (stopAllPlayback s)).playbackState = .IDLE ∧
      (setServoAngle servoId angle (stopAllPlayback s)).serialOut =
        s.serialOut ++ ["All playback stopped",
          if servoId < 0 ∨ (s.activeNumServos : ℤ) ≤ servoId then
            "Invalid servo ID. Valid range: 0-" ++ toString ((s.activeNumServos : ℤ) - 1)
          else "Invalid angle value. Must be between 0 and 180"]) ∧
    (¬(0 ≤ angle ∧ angle ≤ 180) →
      (setMasterAngle angle (stopAllPlayback s)).pwmWrites = s.pwmWrites ∧
      (setMasterAngle angle (stopAllPlayback s)).sequences = s.sequences ∧
      (setMasterAngle angle (stopAllPlayback s)).activeNumServos = s.activeNumServos ∧
      (setMasterAngle angle (stopAllPlayback s)).playbackInfo =
        s.playbackInfo.map (fun p => (p.1, { p.2 with state := .IDLE })) ∧
      (setMasterAngle angle (stopAllPlayback s)).playbackState = .IDLE ∧
      (setMasterAngle angle (stopAllPlayback s)).serialOut =
        s.serialOut ++ ["All playback stopped",
          "Invalid angle value. Must be between 0 and 180"]) := by
  constructor
  · intro hcond
    by_cases hid : servoId < 0 ∨ ((s.activeNumServos : ℤ)) ≤ servoId
    · refine ⟨?_, ?_, ?_, ?_, ?_, ?_⟩ <;>
        simp [setServoAngle, stopAll_activeNumServos, hcond, hid]
    · refine ⟨?_, ?_, ?_, ?_, ?_, ?_⟩ <;>
        simp [setServoAngle, stopAll_activeNumServos, hcond, hid]
  · intro hcond
    refine ⟨?_, ?_, ?_, ?_, ?_, ?_⟩ <;> simp [setMasterAngle, hcond]

/-- Witness for the amended C3 at SA:0:200 and MA:200 on a PLAYING state. -/
theorem rejected_sa_ma_still_stops_playback_witness :
    (¬((0 : ℤ) ≤ 0 ∧ (0 : ℤ) < (5 : ℕ) ∧ (0 : ℚ) ≤ 200 ∧ (200 : ℚ) ≤ 180)) ∧
    ((setServoAngle 0 200 (stopAllPlayback
        ⟨[], 5, .PLAYING, [(0, ⟨.PLAYING, 0, 50, 10, false⟩)], [], []⟩)).pwmWrites = [] ∧
      (setServoAngle 0 200 (stopAllPlayback
        ⟨[], 5, .PLAYING, [(0, ⟨.PLAYING, 0, 50, 10, false⟩)], [], []⟩)).playbackState = .IDLE) := by
  have h := (rejected_sa_ma_still_stops_playback
    ⟨[], 5, .PLAYING, [(0, ⟨.PLAYING, 0, 50, 10, false⟩)], [], []⟩ 0 200).1
    (by norm_num)
  exact ⟨by norm_num, h.1, h.2.2.2.2.1⟩

theorem smFind?_eq_none {V : Type} {l : SMap V} {k : ℤ}
    (h : k ∉ l.map Prod.fst) : smFind? l k = none := by
  induction l with
  | nil => rfl
  | cons p rest ih =>
    simp only [List.map_cons, List.mem_cons] at h
    push_neg at h
    simp only [smFind?]
    rw [if_neg (fun hh => h.1 (by rw [hh]))]
    exact ih h.2

/-- Full characterisation of the PLAY_LOADED sweep: a channel whose id has
a stored sequence and qualifies gets a fresh PLAYING group entry; every
other channel keeps whatever entry the carried map holds. -/
theorem playAllGo_find_char (ct active : ℕ) (l : List (Int × List Keyframe))
    (m : SMap ServoPlaybackInfo) (b : Bool) (k : ℤ)
    (hnd : (l.map Prod.fst).Nodup) :
    smFind? (playAllGo ct active l m b).1 k =
      match smFind? l k with
      | some seq =>
        if k < (active : ℤ) ∧ 2 ≤ seq.length then
          some (match smFind? m k with
            | none => ⟨.PLAYING, 0, ct, seq.headI.angle, true⟩
            | some old => ⟨.PLAYING, 0, ct, old.currentAngle, true⟩)
        else smFind? m k
      | none => smFind? m k := by
  induction l generalizing m b with
  | nil => rfl
  | cons q rest ih =>
    obtain ⟨k0, seq0⟩ := q
    simp only [List.map_cons, List.nodup_cons] at hnd
    by_cases hq : k0 < (active : ℤ) ∧ 2 ≤ seq0.length
    · simp only [playAllGo, if_pos hq]
      by_cases hk : k0 = k
      · subst hk
        have hrest : smFind? rest k0 = none := smFind?_eq_none hnd.1
        rw [ih _ _ hnd.2, hrest]
        simp only [smFind?_insert_self]
        simp only [smFind?, eq_self_iff_true, if_true, if_pos hq]
      · rw [ih _ _ hnd.2]
        have hins : ∀ v : ServoPlaybackInfo, smFind? (smInsert m k0 v) k = smFind? m k :=
          fun v => smFind?_insert_ne _ _ _ _ (fun hh => hk hh.symm)
        simp only [smFind?, if_neg hk]
        rw [hins]
    · simp only [playAllGo, if_neg hq]
      by_cases hk : k0 = k
      · subst hk
        have hrest : smFind? rest k0 = none := smFind?_eq_none hnd.1
        rw [ih _ _ hnd.2, hrest]
        simp only [smFind?, eq_self_iff_true, if_true, if_neg hq]
      · rw [ih _ _ hnd.2]
        simp only [smFind?, if_neg hk]

theorem playAllGo_snd_false (ct active : ℕ) (l : List (Int × List Keyframe))
    (m : SMap ServoPlaybackInfo)
    (h : ∀ p ∈ l, ¬(p.1 < (active : ℤ) ∧ 2 ≤ p.2.length)) :
    (playAllGo ct active l m false).2 = false := by
  induction l generalizing m with
  | nil => rfl
  | cons q rest ih =>
    obtain ⟨k0, seq0⟩ := q
    simp only [playAllGo, if_neg (h _ (List.mem_cons_self _ _))]
    exact ih _ (fun p hp => h p (List.mem_cons_of_mem _ hp))

/-- C6 as stated is refuted: with 2 active channels, a PLAYING channel 5
holding the only (two-keyframe) sequence, PLAY_LOADED qualifies no channel
yet still changes playback state: channel 5 is forced IDLE and the global
flag cleared before the command reports failure. -/
theorem playLoaded_none_qualify_counterexample :
    ((smFind? (processCommand 7 "PLAY_LOADED".toList
        ⟨[(5, [⟨0, 90, default, default⟩, ⟨500, 150, default, default⟩])], 2, .PLAYING,
          [(5, ⟨.PLAYING, 0, 0, 90, false⟩)], [], []⟩).playbackInfo 5).map
        (fun i => i.state) = some .IDLE) ∧
    ((processCommand 7 "PLAY_LOADED".toList
        ⟨[(5, [⟨0, 90, default, default⟩, ⟨500, 150, default, default⟩])], 2, .PLAYING,
          [(5, ⟨.PLAYING, 0, 0, 90, false⟩)], [], []⟩).playbackState = .IDLE) ∧
    ((processCommand 7 "PLAY_LOADED".toList
        ⟨[(5, [⟨0, 90, default, default⟩, ⟨500, 150, default, default⟩])], 2, .PLAYING,
          [(5, ⟨.PLAYING, 0, 0, 90, false⟩)], [], []⟩).serialOut
      = ["All playback stopped", "No valid sequences found for active servos."]) := by
  refine ⟨?_, ?_, ?_⟩
  · with_unfolding_all rfl
  · with_unfolding_all rfl
  · with_unfolding_all rfl

/-- C6 (amended): PLAY_LOADED sets to PLAYING exactly the channels whose id
is below the active count and whose stored sequence has at least two
keyframes, marking each as a group member and keeping its current angle
(first keyframe angle for a fresh entry); every other channel ends with its
prior entry forced IDLE.  With no sequence stored at all the command is a
pure no-op plus a report; but when sequences exist and none qualify the
command is NOT a playback no-op: all playback has already been stopped, and
the failure is then reported. -/
theorem playLoaded_starts_exactly_qualifying (s : Sys) (now : ℕ)
    (hnd : (s.sequences.map Prod.fst).Nodup) :
    (s.sequences = [] →
      startPlaybackAll now s = emit s "Cannot PLAY_LOADED: No sequences loaded.") ∧
    (s.sequences ≠ [] →
      (∀ k : ℤ,
        smFind? (startPlaybackAll now s).playbackInfo k =
          match smFind? s.sequences k with
          | some seq =>
            if k < (s.activeNumServos : ℤ) ∧ 2 ≤ seq.length then
              some ⟨.PLAYING, 0, now % 4294967296,
                (match smFind? s.playbackInfo k with
                  | none => seq.headI.angle
                  | some old => old.currentAngle), true⟩
            else (smFind? s.playbackInfo k).map (fun i => { i with state := .IDLE })
          | none => (smFind? s.playbackInfo k).map (fun i => { i with state := .IDLE })) ∧
      ((∀ p ∈ s.sequences, ¬(p.1 < (s.activeNumServos : ℤ) ∧ 2 ≤ p.2.length)) →
        (startPlaybackAll now s).playbackState = .IDLE ∧
        (startPlaybackAll now s).serialOut =
          s.serialOut ++ ["All playback stopped",
            "No valid sequences found for active servos."])) := by
  refine ⟨fun hemp => ?_, fun hne => ⟨fun k => ?_, fun hnone => ?_⟩⟩
  · simp [startPlaybackAll, hemp]
  · have hchar := playAllGo_find_char (now % 4294967296) s.activeNumServos s.sequences
      (s.playbackInfo.map (fun p => (p.1, { p.2 with state := PlaybackState.IDLE }))) false k
      hnd
    simp only [startPlaybackAll, if_neg hne, stopAll_sequences, stopAll_activeNumServos,
      stopAll_playbackInfo]
    split_ifs with hb <;>
    · rw [emit_playbackInfo]
      dsimp only []
      rw [hchar, smFind?_map_idle]
      cases smFind? s.sequences k with
      | none => rfl
      | some seq =>
        by_cases hq : k < (s.activeNumServos : ℤ) ∧ 2 ≤ seq.length
        · simp only [if_pos hq]
          cases smFind? s.playbackInfo k with
          | none => rfl
          | some old => rfl
        · simp only [if_neg hq]
  · have hsnd := playAllGo_snd_false (now % 4294967296) s.activeNumServos s.sequences
      (s.playbackInfo.map (fun p => (p.1, { p.2 with state := PlaybackState.IDLE })))
      hnone
    simp only [startPlaybackAll, if_neg hne, stopAll_sequences, stopAll_activeNumServos,
      stopAll_playbackInfo]
    split_ifs with hb
    · rw [hsnd] at hb
      exact absurd hb (by decide)
    · constructor
      · rfl
      · simp

/-- Witness for the amended C6 on the spec example: 2 active channels and
two-keyframe sequences for channels 0, 1 and 5: channels 0 and 1 start,
channel 5 does not. -/
theorem playLoaded_starts_exactly_qualifying_witness :
    ((smFind? (startPlaybackAll 7
        ⟨[(0, [⟨0, 90, default, default⟩, ⟨500, 150, default, default⟩]),
          (1, [⟨0, 10, default, default⟩, ⟨300, 20, default, default⟩]),
          (5, [⟨0, 30, default, default⟩, ⟨400, 40, default, default⟩])], 2, .IDLE,
          [], [], []⟩).playbackInfo 0).map (fun i => i.state) = some .PLAYING) ∧
    ((smFind? (startPlaybackAll 7
        ⟨[(0, [⟨0, 90, default, default⟩, ⟨500, 150, default, default⟩]),
          (1, [⟨0, 10, default, default⟩, ⟨300, 20, default, default⟩]),
          (5, [⟨0, 30, default, default⟩, ⟨400, 40, default, default⟩])], 2, .IDLE,
          [], [], []⟩).playbackInfo 1).map (fun i => i.state) = some .PLAYING) ∧
    (smFind? (startPlaybackAll 7
        ⟨[(0, [⟨0, 90, default, default⟩, ⟨500, 150, default, default⟩]),
          (1, [⟨0, 10, default, default⟩, ⟨300, 20, default, default⟩]),
          (5, [⟨0, 30, default, default⟩, ⟨400, 40, default, default⟩])], 2, .IDLE,
          [], [], []⟩).playbackInfo 5) = none := by
  have h := (playLoaded_starts_exactly_qualifying
    ⟨[(0, [⟨0, 90, default, default⟩, ⟨500, 150, default, default⟩]),
      (1, [⟨0, 10, default, default⟩, ⟨300, 20, default, default⟩]),
      (5, [⟨0, 30, default, default⟩, ⟨400, 40, default, default⟩])], 2, .IDLE,
      [], [], []⟩ 7 (by decide)).2 (by simp)
  refine ⟨?_, ?_, ?_⟩
  · rw [h.1 0]
    with_unfolding_all rfl
  · rw [h.1 1]
    with_unfolding_all rfl
  · rw [h.1 5]
    with_unfolding_all rfl


theorem qToULong_natCast (n : ℕ) : qToULong ((n : ℕ) : ℚ) = n := by
  unfold qToULong
  rw [Int.floor_natCast, Int.toNat_natCast]

/-- Shape of the Bezier points of a guarded in-range segment: whatever the
control-point branches produce, the p0/p3 coordinates are the raw keyframe
time and angle values. -/
theorem getBezier_basic {seqs : SMap (List Keyframe)} {servoId : ℤ} {seq : List Keyframe}
    (hseq : smFind? seqs servoId = some seq) (i : ℕ) (hi : i + 1 < seq.length) :
    ∃ pts, getBezierPointsForSegment seqs servoId (i : ℤ) = some pts ∧
      pts.p0_time = ((seq.getD i default).time : ℚ) ∧
      pts.p3_time = ((seq.getD (i + 1) default).time : ℚ) ∧
      pts.p3_angle = (seq.getD (i + 1) default).angle := by
  have hc : smContains seqs servoId = true := by simp [smContains, hseq]
  have hguard : ¬((i : ℤ) < 0 ∨ ((seq.length : ℤ) - 1 ≤ (i : ℤ))) := by
    omega
  simp only [getBezierPointsForSegment, hc, eq_self_iff_true, not_true, if_false,
    Bool.true_eq_false, not_false_eq_true, if_neg hguard, smGetD, hseq, Option.getD_some,
    Int.toNat_natCast]
  exact ⟨_, rfl, rfl, rfl, rfl⟩

/-- C5 as stated is refuted: keyframes (1000,90),(0,150) give the active
segment a negative duration; the tick snaps the angle to the end keyframe
value 150 (no division), but the advance deadline 100 + (-1000) wraps to
2^32 - 900 in unsigned arithmetic, so neither this tick nor the next one
advances the segment index. -/
theorem degenerate_segment_not_advanced_counterexample :
    ((smFind? (updatePlayback 110 (updatePlayback 100
        ⟨[(0, [⟨1000, 90, default, default⟩, ⟨0, 150, default, default⟩])], 5, .PLAYING,
          [(0, ⟨.PLAYING, 0, 100, 90, false⟩)], [], []⟩)).playbackInfo 0).map
        (fun i => i.currentSegment) = some 0) ∧
    ((smFind? (updatePlayback 110 (updatePlayback 100
        ⟨[(0, [⟨1000, 90, default, default⟩, ⟨0, 150, default, default⟩])], 5, .PLAYING,
          [(0, ⟨.PLAYING, 0, 100, 90, false⟩)], [], []⟩)).playbackInfo 0).map
        (fun i => i.currentAngle) = some 150) ∧
    ((smFind? (updatePlayback 110 (updatePlayback 100
        ⟨[(0, [⟨1000, 90, default, default⟩, ⟨0, 150, default, default⟩])], 5, .PLAYING,
          [(0, ⟨.PLAYING, 0, 100, 90, false⟩)], [], []⟩)).playbackInfo 0).map
        (fun i => i.state) = some .PLAYING) := by
  refine ⟨?_, ?_, ?_⟩
  · with_unfolding_all rfl
  · with_unfolding_all rfl
  · with_unfolding_all rfl

/-- C5 (amended): when a playing channel's active segment has end-keyframe
time at most its start-keyframe time, the tick takes the degenerate branch:
it sets the channel's current angle exactly to the end keyframe's angle
without performing the division; the segment index advances on that same
tick exactly when the unsigned 32-bit deadline
(segment_start_time + duration) mod 2^32 has been reached: always for a
zero duration, but not for a negative duration that underflows (the channel
then stays on the degenerate segment). -/
theorem degenerate_segment_snap_and_advance (ctu : ℕ) (seqs : SMap (List Keyframe))
    (servoId : ℤ) (info : ServoPlaybackInfo) (seq : List Keyframe) (i : ℕ)
    (hseq : smFind? seqs servoId = some seq) (hstate : info.state = .PLAYING)
    (hcs : info.currentSegment = (i : ℤ)) (hi : i + 1 < seq.length)
    (hdeg : (seq.getD (i + 1) default).time ≤ (seq.getD i default).time) :
    ((tickServo ctu seqs servoId info).1.currentAngle = (seq.getD (i + 1) default).angle) ∧
    (((((info.segmentStartTime % 4294967296 : ℕ) : ℤ) +
          (((seq.getD (i + 1) default).time : ℤ) - ((seq.getD i default).time : ℤ)))
        % 4294967296).toNat ≤ ctu →
      (tickServo ctu seqs servoId info).1.currentSegment = (i : ℤ) + 1) ∧
    (¬ ((((info.segmentStartTime % 4294967296 : ℕ) : ℤ) +
          (((seq.getD (i + 1) default).time : ℤ) - ((seq.getD i default).time : ℤ)))
        % 4294967296).toNat ≤ ctu →
      (tickServo ctu seqs servoId info).1.currentSegment = (i : ℤ)) := by
  obtain ⟨pts, hpts, hp0, hp3, hpa⟩ := getBezier_basic hseq i hi
  have hc : smContains seqs servoId = true := by simp [smContains, hseq]
  have hguard : ¬((seq.length : ℤ) - 1 ≤ (i : ℤ)) := by
    omega
  have hdur : (qToULong pts.p3_time : ℤ) - (qToULong pts.p0_time : ℤ) =
      ((seq.getD (i + 1) default).time : ℤ) - ((seq.getD i default).time : ℤ) := by
    rw [hp0, hp3, qToULong_natCast, qToULong_natCast]
  have hdurle : (qToULong pts.p3_time : ℤ) - (qToULong pts.p0_time : ℤ) ≤ 0 := by
    rw [hdur]
    omega
  simp only [tickServo, hstate, ne_eq, eq_self_iff_true, not_true_eq_false, if_false, hc,
    Bool.true_eq_false, not_false_eq_true, not_true, smGetD, hseq, Option.getD_some, hcs,
    if_neg hguard, hpts, if_pos hdurle]
  rw [hdur]
  refine ⟨?_, fun hadv => ?_, fun hadv => ?_⟩
  · split_ifs <;> exact hpa
  · rw [if_pos hadv]
    split_ifs <;> rfl
  · rw [if_neg hadv]

/-- Witness for the amended C5 at the concrete negative-duration segment of
the counterexample state. -/
theorem degenerate_segment_snap_and_advance_witness :
    ((tickServo 100 [(0, [⟨1000, 90, default, default⟩, ⟨0, 150, default, default⟩])] 0
        ⟨.PLAYING, 0, 100, 90, false⟩).1.currentAngle = 150) ∧
    ((tickServo 100 [(0, [⟨1000, 90, default, default⟩, ⟨0, 150, default, default⟩])] 0
        ⟨.PLAYING, 0, 100, 90, false⟩).1.currentSegment = 0) := by
  have h := degenerate_segment_snap_and_advance 100
    [(0, [⟨1000, 90, default, default⟩, ⟨0, 150, default, default⟩])] 0
    ⟨.PLAYING, 0, 100, 90, false⟩
    [⟨1000, 90, default, default⟩, ⟨0, 150, default, default⟩] 0
    (by with_unfolding_all rfl) rfl rfl (by norm_num) (by norm_num)
  refine ⟨h.1, ?_⟩
  have h3 := h.2.2 (by decide)
  simpa using h3

/-- C1 is a code bug: String::toFloat never throws, so the try/catch of
parseKeyframeSegment is dead code and the non-numeric angle INVALID parses
silently as 0.0.  The load therefore succeeds, REPLACING the prior sequence
of channel 0 with (0,90),(500,0) and printing the success line, where the
spec requires the whole load to be aborted, the prior sequence kept and a
load error reported. -/
theorem loadSeq_nonnumeric_angle_silently_accepted :
    ((processCommand 0 "LOAD_SEQ:0:0,90;500,INVALID".toList
        ⟨[(0, [⟨0, 10, default, default⟩, ⟨100, 20, default, default⟩])], 5, .IDLE,
          [(0, ⟨.IDLE, 0, 0, 10, false⟩)], [], []⟩).sequences
      = [(0, [⟨0, 90, default, default⟩, ⟨500, 0, default, default⟩])]) ∧
    ((processCommand 0 "LOAD_SEQ:0:0,90;500,INVALID".toList
        ⟨[(0, [⟨0, 10, default, default⟩, ⟨100, 20, default, default⟩])], 5, .IDLE,
          [(0, ⟨.IDLE, 0, 0, 10, false⟩)], [], []⟩).serialOut
      = ["Loaded sequence for servo 0 with 2 keyframes."]) := by
  constructor
  · with_unfolding_all rfl
  · with_unfolding_all rfl


end Servo
